import Mathlib

/-!
Verification of the CodeTalk Talkpoint Lifecycle and Debug-Event Correlation
engine, shallowly embedded from
`src/VisualStudioCode/src/controllers/codeTalkController.ts`,
`src/VisualStudioCode/src/models/interfaces.ts`,
the `asyncFilter` helper of `src/models/utils.ts`, and the creation flow of
`src/VisualStudioCode/Extension/src/models/talkpointMenu.ts`.
-/

namespace CodeTalk

/-- A talkpoint, from `interfaces.ts`.  The source is a tagged union
(`ITonalTalkpoint | ITextTalkpoint | IExpressionTalkpoint`) realized as one
object whose variant-specific fields may be absent; we model the `type` tag
as the string the code switches on and the variant fields as `Option`s.
`position` is stored as `new vscode.Position(line, 0)`, so only the line
matters; `uri` is only ever read through `.path`. -/
structure Talkpoint where
  type : String
  sound : Option String
  text : Option String
  expression : Option String
  positionLine : Nat
  uriPath : String
  breakpointId : String
  shouldContinue : Bool
deriving DecidableEq, Repr

/-- A live source breakpoint as the controller reads it: `vscode.SourceBreakpoint`
with its session identity `id`, `location.uri.path` and
`location.range.start.line`. -/
structure Breakpoint where
  id : String
  uriPath : String
  line : Nat
deriving DecidableEq, Repr

/-- The talkpoint Store is the `Map<string, ITalkpoint>` field `_talkPoints`,
modelled as an association list in insertion order. -/
abbrev Store : Type := List (String × Talkpoint)

/-- JavaScript `Map.get`: the value of the entry with the given key. -/
def Store.get : Store → String → Option Talkpoint
  | [], _ => none
  | e :: rest, k => if e.1 == k then some e.2 else Store.get rest k

/-- JavaScript `Map.has`. -/
def Store.hasKey (s : Store) (k : String) : Bool :=
  (Store.get s k).isSome

/-- JavaScript `Map.set`: updates the entry with the given key in place, or
appends a new entry when the key is absent. -/
def Store.set : Store → String → Talkpoint → Store
  | [], k, v => [(k, v)]
  | e :: rest, k, v => if e.1 == k then (k, v) :: rest else e :: Store.set rest k v

/-- JavaScript `Map.delete`: removes the entry with the given key. -/
def Store.del (s : Store) (k : String) : Store :=
  List.filter (fun e => e.1 != k) s

/-- JavaScript `Map.size`. -/
def Store.size (s : Store) : Nat :=
  List.length s

/-- A user-visible notification
(`showInformationMessage` / `showWarningMessage` / `showErrorMessage`). -/
inductive Message
  | info (text : String)
  | warning (text : String)
  | error (text : String)
deriving DecidableEq, Repr

/-- The controller state touched by the talkpoint lifecycle: the `_talkPoints`
map, the `_breakpointsLoaded` guard flag, the live breakpoint set owned by the
debugging subsystem (`vscode.debug.breakpoints`), the notifications shown so
far, and the number of `talkpoints.changed` internal events emitted. -/
structure ControllerState where
  talkPoints : Store
  breakpointsLoaded : Bool
  liveBreakpoints : List Breakpoint
  messages : List Message
  changedEmits : Nat
deriving DecidableEq, Repr

/-- Models `vscode.debug.addBreakpoints`: the debugging subsystem registers the
given breakpoints, keyed by identity, ignoring ones already registered. -/
def addBreakpoints (live : List Breakpoint) (bps : List Breakpoint) : List Breakpoint :=
  live ++ List.filter (fun b => !(live.any (fun b0 => b0.id == b.id))) bps

/-- Models `vscode.debug.removeBreakpoints`: the debugging subsystem drops the
given breakpoints, by identity. -/
def removeBreakpoints (live : List Breakpoint) (bps : List Breakpoint) : List Breakpoint :=
  List.filter (fun b => !(bps.any (fun b0 => b0.id == b.id))) live

/-- The result of `showTalkpointCreationSteps` in `talkpointMenu.ts`
(interface `ITalkpointCreationState`). -/
structure TalkpointCreationState where
  type : String
  sound : Option String
  text : Option String
  expression : Option String
  shouldContinue : Bool
  dismissedEarly : Bool
deriving DecidableEq, Repr

/-- `removeTalkpoints` (codeTalkController.ts lines 488-500): for each given
breakpoint whose identity is in the Store, delete it and show a confirmation. -/
def removeTalkpoints (s : ControllerState) (bps : List Breakpoint) : ControllerState :=
  bps.foldl (fun st bp =>
    if Store.hasKey st.talkPoints bp.id then
      { st with
        talkPoints := Store.del st.talkPoints bp.id,
        messages := st.messages ++
          [Message.info ("Removed talkpoint from line " ++ toString (bp.line + 1) ++ ".")] }
    else st) s

/-- `handleRemoveAllTalkpoints` (codeTalkController.ts lines 470-482). -/
def handleRemoveAllTalkpoints (s : ControllerState) : ControllerState :=
  let numTalkpoints := Store.size s.talkPoints
  if numTalkpoints > 0 then
    let breakpoints := s.liveBreakpoints.filter (fun b => Store.hasKey s.talkPoints b.id)
    { s with
      liveBreakpoints := removeBreakpoints s.liveBreakpoints breakpoints,
      talkPoints := [],
      messages := s.messages ++
        [Message.info ("Removed " ++ toString numTalkpoints ++ " talkpoints from workspace.")],
      changedEmits := s.changedEmits + 1 }
  else
    { s with messages := s.messages ++ [Message.info "There are no talkpoints registered."] }

/-- `createTalkpoint` (codeTalkController.ts lines 536-564).  If a talkpoint
already exists for the breakpoint identity, this toggles it off: it removes the
talkpoint and removes the breakpoint.  Otherwise the creation flow's outcome
`state` decides: an early dismissal shows a warning and returns before the
changed event is emitted; otherwise the talkpoint is committed and the
breakpoint registered live. -/
def createTalkpoint (s : ControllerState) (activeUriPath : String) (selectionLine : Nat)
    (breakpoint : Breakpoint) (state : TalkpointCreationState) : ControllerState :=
  if Store.hasKey s.talkPoints breakpoint.id then
    let s1 := removeTalkpoints s [breakpoint]
    let s2 := { s1 with liveBreakpoints := removeBreakpoints s1.liveBreakpoints [breakpoint] }
    { s2 with changedEmits := s2.changedEmits + 1 }
  else if state.dismissedEarly then
    { s with messages := s.messages ++ [Message.warning "Dismissed talkpoint creation."] }
  else
    { s with
      talkPoints := Store.set s.talkPoints breakpoint.id
        { type := state.type,
          text := state.text,
          expression := state.expression,
          sound := state.sound,
          positionLine := selectionLine,
          uriPath := activeUriPath,
          breakpointId := breakpoint.id,
          shouldContinue := state.shouldContinue },
      liveBreakpoints := addBreakpoints s.liveBreakpoints [breakpoint],
      messages := s.messages ++
        [Message.info ("Added talkpoint to line " ++ toString (selectionLine + 1) ++ ".")],
      changedEmits := s.changedEmits + 1 }

/-- The breakpoint `handleAddTalkpoint` (lines 506-527) operates on: the first
existing live breakpoint at the selection's line and file, or else a freshly
constructed one (whose registration is deferred to `createTalkpoint`).
The `freshId` argument stands for the identity the editor assigns to the
fresh `vscode.SourceBreakpoint`. -/
def selectedBreakpoint (s : ControllerState) (activeUriPath : String) (selectionLine : Nat)
    (freshId : String) : Breakpoint :=
  let existingBreakpoints := s.liveBreakpoints.filter
    (fun b => b.line == selectionLine && activeUriPath == b.uriPath)
  match existingBreakpoints with
  | b :: _ => b
  | [] => { id := freshId, uriPath := activeUriPath, line := selectionLine }

/-- `handleAddTalkpoint` (codeTalkController.ts lines 506-527), with the
outcome of the external creation flow passed in as `state`. -/
def handleAddTalkpoint (s : ControllerState) (activeUriPath : String) (selectionLine : Nat)
    (freshId : String) (state : TalkpointCreationState) : ControllerState :=
  createTalkpoint s activeUriPath selectionLine
    (selectedBreakpoint s activeUriPath selectionLine freshId) state

/-- The `talkpointsByFileLine` record of `loadInitialTalkpoints` (lines
572-576): a lookup from a talkpoint's file path and line to the talkpoint,
built by a reduce in which a later entry overwrites an earlier one at the same
key.  The source keys the record by the string `uri.path + ';' + line`; since
the decimal digits of `line` never contain the separator, that key determines
the pair, and we key by the pair directly. -/
def talkpointsByFileLine (store : Store) (path : String) (line : Nat) : Option Talkpoint :=
  store.foldl
    (fun acc e => if e.2.uriPath == path && e.2.positionLine == line then some e.2 else acc)
    none

/-- The final value of the `breakpointId` field of the persisted talkpoint
object at a given (path, line) after the reconciliation loop: every breakpoint
of the loaded set at that location executes
`talkpoint.breakpointId = breakpoint.id` on the one shared object the lookup
returns, so the last such write (in iteration order) wins; `dflt` is the
field's value when no breakpoint matches (never the case for the locations the
loop actually inserts). -/
def lastMatchedId (breakpoints : List Breakpoint) (path : String) (line : Nat)
    (dflt : String) : String :=
  breakpoints.foldl
    (fun acc bp => if bp.uriPath == path && bp.line == line then bp.id else acc) dflt

/-- `loadInitialTalkpoints` (codeTalkController.ts lines 569-594): the first
time breakpoints are loaded this session, rebuild the Store by joining the
previously held talkpoints against the just-loaded live breakpoints on
(file path, line); then set the `_breakpointsLoaded` guard.  The source's
`talkpoint.breakpointId = breakpoint.id` mutates the looked-up talkpoint
object in place, and every live breakpoint at one (path, line) looks up the
same object, so after the loop each Store entry referencing that object
observes the id written by the last such breakpoint — modelled here by
inserting, under each matched breakpoint's identity, the final state of the
shared object (`lastMatchedId`). -/
def loadInitialTalkpoints (s : ControllerState) (breakpoints : List Breakpoint) : ControllerState :=
  if s.breakpointsLoaded then s else
    let newStore := breakpoints.foldl (fun st bp =>
      match talkpointsByFileLine s.talkPoints bp.uriPath bp.line with
      | some talkpoint => Store.set st bp.id
          { talkpoint with
            breakpointId := lastMatchedId breakpoints bp.uriPath bp.line bp.id }
      | none => st) ([] : Store)
    { s with
      talkPoints := newStore,
      breakpointsLoaded := true,
      changedEmits := s.changedEmits + 1 }

/-- A `vscode.BreakpointsChangeEvent`. -/
structure BreakpointsChangeEvent where
  added : List Breakpoint
  removed : List Breakpoint
  changed : List Breakpoint
deriving DecidableEq, Repr

/-- `handleChangeBreakpointsEvent` (codeTalkController.ts lines 289-304):
reconcile on the first load, drop talkpoints for removed breakpoints, and emit
`talkpoints.changed`. -/
def handleChangeBreakpointsEvent (s : ControllerState) (e : BreakpointsChangeEvent) :
    ControllerState :=
  let s1 := if !s.breakpointsLoaded && e.added.length > 0 then loadInitialTalkpoints s e.added
            else s
  let s2 := if e.removed.length > 0 then removeTalkpoints s1 e.removed else s1
  { s2 with changedEmits := s2.changedEmits + 1 }

/-! The Debug Event Correlator: the `onDidSendMessage` handler installed by
`createDebugAdapterTrackerFactory` (codeTalkController.ts lines 627-697).
Asynchronous debug-adapter round trips are modelled in `Except`: a rejected
promise is `Except.error`. -/

/-- `asyncFilter` from `src/models/utils.ts`: `Promise.all` over the
predicate applied to every element, then an index-aligned filter.  If any
predicate rejects, `Promise.all` rejects, and so does the whole filter. -/
def asyncFilter {α ε : Type} (arr : List α) (predicate : α → Except ε Bool) :
    Except ε (List α) :=
  (arr.mapM predicate).map
    (fun results => ((arr.zip results).filter (fun p => p.2)).map (fun p => p.1))

/-- The top stack frame returned by the `stackTrace` request
(`stack.stackFrames[0]`): we record its `source.path` already normalized the
way the code reads it (`vscode.Uri.file(currentFrame.source.path).path`),
its `line`, and its frame `id`. -/
structure StackFrame where
  sourcePath : String
  line : Nat
  id : Nat
deriving DecidableEq, Repr

/-- The debug session's responses to the protocol round trips the correlator
performs.  `resolvedLine b.id` models
`(await session.getDebugProtocolBreakpoint(b) as any)?.line`: `Except.error`
is a rejected round trip, `Except.ok none` a breakpoint the adapter reports no
line for (the `undefined` chain), `Except.ok (some l)` the adapter's
authoritative line.  `evaluate expr frameId` models
`session.customRequest('evaluate', ...)`, whose rejection the code catches. -/
structure DebugSessionEnv where
  resolvedLine : String → Except String (Option Nat)
  evaluate : Option String → Nat → Except String String

/-- One observable side effect of dispatching a matched talkpoint. -/
inductive DispatchEvent
  | tonePlayed
  | infoMessage (text : String)
  | logged (text : String)
  | unrecognizedError (talkpoint : Talkpoint)
  | continueRequest (threadId : Nat)
deriving DecidableEq, Repr

/-- JavaScript string coercion of a possibly-undefined string field. -/
def jsStringOf : Option String → String
  | some t => t
  | none => "undefined"

/-- The matching predicate of the stopped handler (lines 644-651): the
breakpoint's file path must equal the frame's source path and the debugger's
resolved line for the breakpoint must equal the frame's reported line. -/
def breakpointMatchesFrame (env : DebugSessionEnv) (frame : StackFrame) (b : Breakpoint) :
    Except String Bool := do
  let debugBreakpointLine ← env.resolvedLine b.id
  return b.uriPath == frame.sourcePath && debugBreakpointLine == some frame.line

/-- The type-directed feedback of the dispatch switch (lines 658-684): a tone
for `Tonal`; announcement plus output-channel log of the text for `Text`; for
`Expression`, an `evaluate` round trip whose rejection is caught and turned
into the distinct invalid-expression announcement, then announcement plus log;
an error-level message naming the talkpoint for an unrecognized type. -/
def feedbackEvents (env : DebugSessionEnv) (frame : StackFrame) (talkpoint : Talkpoint) :
    List DispatchEvent :=
  match talkpoint.type with
  | "Tonal" => [DispatchEvent.tonePlayed]
  | "Text" =>
    let message := "Text Talkpoint Hit: " ++ jsStringOf talkpoint.text
    [DispatchEvent.infoMessage message, DispatchEvent.logged message]
  | "Expression" =>
    let message :=
      match env.evaluate talkpoint.expression frame.id with
      | Except.ok result => "Expression Talkpoint Hit: " ++ result
      | Except.error error => "Expression Talkpoint Invalid: " ++ error
    [DispatchEvent.infoMessage message, DispatchEvent.logged message]
  | _ => [DispatchEvent.unrecognizedError talkpoint]

/-- The body of the per-matched-breakpoint `forEach` callback (lines 653-691):
if the Store holds a talkpoint for the breakpoint, produce that callback's
ordered side effects — the type-directed feedback, then, if `shouldContinue`,
a `continue` request for the stopped thread. -/
def dispatchForBreakpoint (store : Store) (env : DebugSessionEnv) (frame : StackFrame)
    (threadId : Nat) (b : Breakpoint) : List DispatchEvent :=
  match Store.get store b.id with
  | none => []
  | some talkpoint =>
    feedbackEvents env frame talkpoint ++
      (if talkpoint.shouldContinue then [DispatchEvent.continueRequest threadId] else [])

/-- A debug-adapter protocol message as the tracker reads it structurally:
`m.type`, `m.event`, `m.body.reason`, `m.body.threadId`. -/
structure DebugProtocolMessage where
  type : String
  event : String
  reason : String
  threadId : Nat
deriving DecidableEq, Repr

/-- The trigger condition of the stopped handler (lines 636-637). -/
def isTalkpointStop (m : DebugProtocolMessage) : Bool :=
  m.type == "event" && m.event == "stopped" &&
    (m.reason == "breakpoint" || m.reason == "step")

/-- The stopped-event handling of `onDidSendMessage` (lines 636-692), after the
`stackTrace` round trip has produced the top frame: filter the live breakpoints
through the matching predicate (a rejected resolution rejects the whole pass,
through `Promise.all` in `asyncFilter`), then run the per-breakpoint dispatch
callback on every match.  The result pairs each matched breakpoint's identity
with the ordered side effects of its own callback; the callbacks themselves
run concurrently and share no state. -/
def handleStoppedEvent (live : List Breakpoint) (store : Store) (env : DebugSessionEnv)
    (frame : StackFrame) (m : DebugProtocolMessage) :
    Except String (List (String × List DispatchEvent)) :=
  if isTalkpointStop m then do
    let matchedBreakpoints ← asyncFilter live (breakpointMatchesFrame env frame)
    return matchedBreakpoints.map
      (fun b => (b.id, dispatchForBreakpoint store env frame m.threadId b))
  else
    return []

/-! Specification-side definitions used to state the verified properties. -/

/-- Key/field agreement: every Store entry's talkpoint records the key it is
stored under as its `breakpointId`. -/
def StoreKeyInv (store : Store) : Prop :=
  ∀ e ∈ store, e.2.breakpointId = e.1

/-- The live breakpoints at a given file and line, in live-set order; the
filter is the one `handleAddTalkpoint` uses to find an existing breakpoint. -/
def liveAt (s : ControllerState) (activeUriPath : String) (selectionLine : Nat) :
    List Breakpoint :=
  s.liveBreakpoints.filter (fun b => b.line == selectionLine && activeUriPath == b.uriPath)

/-- The Store entries whose talkpoint sits at a given file and line. -/
def storeAt (s : ControllerState) (activeUriPath : String) (selectionLine : Nat) : Store :=
  s.talkPoints.filter
    (fun e => e.2.uriPath == activeUriPath && e.2.positionLine == selectionLine)

/-- A sequence of completed add-talkpoint invocations at one (uri, line),
each supplying the identity the editor would assign to a freshly created
breakpoint and the outcome of the creation flow. -/
def addTalkpointSeq (activeUriPath : String) (selectionLine : Nat) :
    ControllerState → List (String × TalkpointCreationState) → ControllerState
  | s, [] => s
  | s, (freshId, state) :: rest =>
    addTalkpointSeq activeUriPath selectionLine
      (handleAddTalkpoint s activeUriPath selectionLine freshId state) rest

/-- Side conditions for a toggle sequence: every creation flow completes
(not dismissed), and each fresh identity is unused at the time of its
invocation (editor-assigned identities are fresh UUIDs). -/
def SeqOk (activeUriPath : String) (selectionLine : Nat) :
    ControllerState → List (String × TalkpointCreationState) → Prop
  | _, [] => True
  | s, (freshId, state) :: rest =>
    state.dismissedEarly = false ∧
    Store.hasKey s.talkPoints freshId = false ∧
    (∀ b ∈ s.liveBreakpoints, b.id ≠ freshId) ∧
    SeqOk activeUriPath selectionLine
      (handleAddTalkpoint s activeUriPath selectionLine freshId state) rest

/-! Concrete example data for witnesses and counterexamples. -/

/-- Example breakpoint A at line 5 of /a.py, whose line-resolution round trip
will be rejected in the counterexample environment. -/
def exBpA : Breakpoint := { id := "A", uriPath := "/a.py", line := 5 }

/-- Example breakpoint B at line 11 of /a.py, resolved by the debugger to
line 12. -/
def exBpB : Breakpoint := { id := "B", uriPath := "/a.py", line := 11 }

/-- Example Expression talkpoint on breakpoint A. -/
def exTpA : Talkpoint :=
  { type := "Expression", sound := none, text := none, expression := some "1/0",
    positionLine := 5, uriPath := "/a.py", breakpointId := "A", shouldContinue := true }

/-- Example Text talkpoint on breakpoint B. -/
def exTpB : Talkpoint :=
  { type := "Text", sound := none, text := some "hello", expression := none,
    positionLine := 11, uriPath := "/a.py", breakpointId := "B", shouldContinue := false }

/-- Environment in which breakpoint A's line-resolution round trip is
rejected while B's resolves to line 12, and every evaluation fails. -/
def exEnvReject : DebugSessionEnv :=
  { resolvedLine := fun bid => if bid == "A" then Except.error "rejected"
      else Except.ok (some 12),
    evaluate := fun _ _ => Except.error "name error" }

/-- Environment in which both breakpoints resolve to line 12 and every
evaluation fails. -/
def exEnvEvalFail : DebugSessionEnv :=
  { resolvedLine := fun _ => Except.ok (some 12),
    evaluate := fun _ _ => Except.error "name error" }

/-- The top stack frame of the example stop: /a.py at line 12. -/
def exFrame : StackFrame := { sourcePath := "/a.py", line := 12, id := 0 }

/-- The example stopped message. -/
def exMsg : DebugProtocolMessage :=
  { type := "event", event := "stopped", reason := "breakpoint", threadId := 7 }

/-- A completed Text creation-flow outcome. -/
def exCreation : TalkpointCreationState :=
  { type := "Text", sound := none, text := some "hi", expression := none,
    shouldContinue := false, dismissedEarly := false }

/-- An early-dismissed creation-flow outcome. -/
def exCreationDismissed : TalkpointCreationState :=
  { type := "Text", sound := none, text := none, expression := none,
    shouldContinue := false, dismissedEarly := true }

/-- A pre-existing plain breakpoint at line 4 of /a.py. -/
def exBp0 : Breakpoint := { id := "b0", uriPath := "/a.py", line := 4 }

/-- A controller state whose live set holds only the plain breakpoint
`exBp0` and whose Store is empty. -/
def exStateWithBp0 : ControllerState :=
  { talkPoints := [], breakpointsLoaded := true, liveBreakpoints := [exBp0],
    messages := [], changedEmits := 0 }

/-- The empty controller state. -/
def exStateEmpty : ControllerState :=
  { talkPoints := [], breakpointsLoaded := false, liveBreakpoints := [],
    messages := [], changedEmits := 0 }

/-- Example Tonal talkpoint stored under `exBp0`. -/
def exTp0 : Talkpoint :=
  { type := "Tonal", sound := some "Default", text := none, expression := none,
    positionLine := 4, uriPath := "/a.py", breakpointId := "b0", shouldContinue := true }

/-- A state with one talkpoint-backed breakpoint (`exBp0`) and one unrelated
plain breakpoint (`exBpA`). -/
def exStateOne : ControllerState :=
  { talkPoints := [("b0", exTp0)], breakpointsLoaded := true,
    liveBreakpoints := [exBp0, exBpA], messages := [], changedEmits := 0 }

/-- A talkpoint persisted from the previous session under the stale identity
"old-1", at line 10 of /a.py. -/
def exTpPersist : Talkpoint :=
  { type := "Text", sound := none, text := some "persisted", expression := none,
    positionLine := 10, uriPath := "/a.py", breakpointId := "old-1",
    shouldContinue := false }

/-- The state at session start: the persisted talkpoint is loaded but
reconciliation has not run yet. -/
def exStatePersisted : ControllerState :=
  { talkPoints := [("old-1", exTpPersist)], breakpointsLoaded := false,
    liveBreakpoints := [], messages := [], changedEmits := 0 }

/-- The live breakpoint this session at the same (path, line), under the new
identity "bp-7". -/
def exBpNew : Breakpoint := { id := "bp-7", uriPath := "/a.py", line := 10 }

/-- A second live breakpoint this session at the same (path, line) as
`exBpNew` — e.g. an inline breakpoint on the same line — with identity
"bp-8". -/
def exBpNew2 : Breakpoint := { id := "bp-8", uriPath := "/a.py", line := 10 }

/-! Helper lemmas about the Store. -/

theorem Store.get_set_self (st : Store) (k : String) (v : Talkpoint) :
    Store.get (Store.set st k v) k = some v := by
  induction st with
  | nil => simp [Store.set, Store.get]
  | cons e rest ih =>
    by_cases h : e.1 = k
    · simp [Store.set, Store.get, h]
    · simp only [Store.set, Store.get, beq_iff_eq, h, if_false, if_neg h]
      exact ih

theorem Store.get_set_ne (st : Store) (k k' : String) (v : Talkpoint) (h : k' ≠ k) :
    Store.get (Store.set st k v) k' = Store.get st k' := by
  induction st with
  | nil => simp [Store.set, Store.get, h.symm]
  | cons e rest ih =>
    by_cases he : e.1 = k
    · subst he
      simp [Store.set, Store.get, h.symm]
    · by_cases he' : e.1 = k'
      · simp [Store.set, Store.get, he, he', h]
      · simp [Store.set, Store.get, he, he', ih]

theorem Store.mem_set (st : Store) (k : String) (v : Talkpoint) (e : String × Talkpoint)
    (h : e ∈ Store.set st k v) : e = (k, v) ∨ e ∈ st := by
  induction st with
  | nil =>
    simp [Store.set] at h
    exact Or.inl h
  | cons e0 rest ih =>
    by_cases he : e0.1 = k
    · simp only [Store.set, beq_iff_eq, he, if_true, List.mem_cons] at h
      rcases h with h | h
      · exact Or.inl h
      · exact Or.inr (List.mem_cons_of_mem _ h)
    · simp only [Store.set, beq_iff_eq, he, if_false, List.mem_cons] at h
      rcases h with h | h
      · exact Or.inr (List.mem_cons.mpr (Or.inl h))
      · rcases ih h with h' | h'
        · exact Or.inl h'
        · exact Or.inr (List.mem_cons_of_mem _ h')

theorem Store.set_eq_append (st : Store) (k : String) (v : Talkpoint)
    (h : Store.hasKey st k = false) : Store.set st k v = st ++ [(k, v)] := by
  induction st with
  | nil => simp [Store.set]
  | cons e rest ih =>
    by_cases he : e.1 = k
    · exfalso
      simp [Store.hasKey, Store.get, he] at h
    · have h' : Store.hasKey rest k = false := by
        simpa [Store.hasKey, Store.get, he] using h
      simp [Store.set, he, ih h']

theorem Store.get_del_self (st : Store) (k : String) :
    Store.get (Store.del st k) k = none := by
  induction st with
  | nil => simp [Store.del, Store.get]
  | cons e rest ih =>
    by_cases he : e.1 = k
    · simpa [Store.del, List.filter_cons, he] using ih
    · simpa [Store.del, List.filter_cons, bne_iff_ne, he, Store.get] using ih

theorem Store.hasKey_of_mem (st : Store) (e : String × Talkpoint) (h : e ∈ st) :
    Store.hasKey st e.1 = true := by
  induction st with
  | nil => simp at h
  | cons e0 rest ih =>
    rcases List.mem_cons.mp h with h | h
    · subst h
      simp [Store.hasKey, Store.get]
    · by_cases he : e0.1 = e.1
      · simp [Store.hasKey, Store.get, he]
      · simp only [Store.hasKey, Store.get, beq_iff_eq, he, if_false]
        exact ih h

theorem Store.get_some_mem (st : Store) (k : String) (v : Talkpoint)
    (h : Store.get st k = some v) : (k, v) ∈ st := by
  induction st with
  | nil => simp [Store.get] at h
  | cons e rest ih =>
    by_cases he : e.1 = k
    · simp only [Store.get, beq_iff_eq, he, if_true, Option.some.injEq] at h
      subst h
      rw [← he]
      exact List.mem_cons_self _ _
    · simp only [Store.get, beq_iff_eq, he, if_false] at h
      exact List.mem_cons_of_mem _ (ih h)

/-! Helper lemmas about `asyncFilter`. -/

theorem asyncFilter_nil {α ε : Type} (p : α → Except ε Bool) :
    asyncFilter ([] : List α) p = Except.ok [] := by
  simp [asyncFilter]
  rfl

theorem asyncFilter_cons {α ε : Type} (a : α) (l : List α) (p : α → Except ε Bool) :
    asyncFilter (a :: l) p =
      match p a with
      | Except.error e => Except.error e
      | Except.ok r =>
        match asyncFilter l p with
        | Except.error e => Except.error e
        | Except.ok rest => Except.ok (if r then a :: rest else rest) := by
  unfold asyncFilter
  rw [List.mapM_cons]
  cases hpa : p a with
  | error e => rfl
  | ok r =>
    cases hml : l.mapM p with
    | error e =>
      simp only [hml]
      rfl
    | ok results =>
      simp only [hml]
      show Except.ok _ = _
      simp only [List.zip_cons_cons, List.filter_cons]
      cases r with
      | true => simp [Except.map]
      | false => simp [Except.map]

theorem asyncFilter_ok_mem {α ε : Type} (arr : List α) (p : α → Except ε Bool)
    (res : List α) (h : asyncFilter arr p = Except.ok res) :
    ∀ a : α, a ∈ res ↔ a ∈ arr ∧ p a = Except.ok true := by
  induction arr generalizing res with
  | nil =>
    rw [asyncFilter_nil] at h
    cases h
    simp
  | cons a0 l ih =>
    rw [asyncFilter_cons] at h
    cases hpa : p a0 with
    | error e => simp [hpa] at h
    | ok r =>
      rw [hpa] at h
      cases hfl : asyncFilter l p with
      | error e => simp [hfl] at h
      | ok rest =>
        rw [hfl] at h
        simp only [Except.ok.injEq] at h
        subst h
        intro a
        have hrest := ih rest hfl a
        cases r with
        | true =>
          simp only [if_pos trivial, List.mem_cons]
          constructor
          · rintro (rfl | hmem)
            · exact ⟨Or.inl rfl, hpa⟩
            · rcases hrest.mp hmem with ⟨hm, hp⟩
              exact ⟨Or.inr hm, hp⟩
          · rintro ⟨hm, hp⟩
            rcases hm with rfl | hm
            · exact Or.inl rfl
            · exact Or.inr (hrest.mpr ⟨hm, hp⟩)
        | false =>
          simp only [Bool.false_eq_true, if_neg, List.mem_cons]
          constructor
          · intro hmem
            rcases hrest.mp hmem with ⟨hm, hp⟩
            exact ⟨Or.inr hm, hp⟩
          · rintro ⟨hm, hp⟩
            rcases hm with rfl | hm
            · rw [hpa] at hp
              cases hp
            · exact hrest.mpr ⟨hm, hp⟩

/-! Helper lemmas about the stopped-event handler. -/

theorem breakpointMatchesFrame_eq (env : DebugSessionEnv) (frame : StackFrame)
    (b : Breakpoint) :
    breakpointMatchesFrame env frame b =
      match env.resolvedLine b.id with
      | Except.error e => Except.error e
      | Except.ok l =>
        Except.ok (b.uriPath == frame.sourcePath && l == some frame.line) := by
  unfold breakpointMatchesFrame
  cases env.resolvedLine b.id <;> rfl

theorem breakpointMatchesFrame_ok_true (env : DebugSessionEnv) (frame : StackFrame)
    (b : Breakpoint) :
    breakpointMatchesFrame env frame b = Except.ok true ↔
      (b.uriPath = frame.sourcePath ∧
        env.resolvedLine b.id = Except.ok (some frame.line)) := by
  rw [breakpointMatchesFrame_eq]
  cases hres : env.resolvedLine b.id with
  | error e => simp
  | ok l => simp [Bool.and_eq_true]

theorem handleStoppedEvent_ok (live : List Breakpoint) (store : Store)
    (env : DebugSessionEnv) (frame : StackFrame) (m : DebugProtocolMessage)
    (ms : List Breakpoint)
    (hstop : isTalkpointStop m = true)
    (hok : asyncFilter live (breakpointMatchesFrame env frame) = Except.ok ms) :
    handleStoppedEvent live store env frame m =
      Except.ok (ms.map
        (fun b => (b.id, dispatchForBreakpoint store env frame m.threadId b))) := by
  unfold handleStoppedEvent
  rw [if_pos hstop, hok]
  rfl

theorem feedbackEvents_ne_nil (env : DebugSessionEnv) (frame : StackFrame)
    (tp : Talkpoint) :
    feedbackEvents env frame tp ≠ [] ∧
      ∀ e ∈ feedbackEvents env frame tp, ∀ t : Nat, e ≠ DispatchEvent.continueRequest t := by
  unfold feedbackEvents
  split <;> simp

/-! Claim theorems for the Debug Event Correlator. -/

/-- C2: during the handling of a stopped event with reason breakpoint or step,
a live breakpoint is selected as a match if and only if its file path equals
the stopped frame's source path and its debugger-resolved line equals the
frame's reported line; the breakpoint's nominal source line plays no role in
the matching predicate. -/
theorem matching_iff_path_and_resolved_line (live : List Breakpoint) (store : Store)
    (env : DebugSessionEnv) (frame : StackFrame) (m : DebugProtocolMessage)
    (ms : List Breakpoint)
    (hstop : isTalkpointStop m = true)
    (hok : asyncFilter live (breakpointMatchesFrame env frame) = Except.ok ms) :
    handleStoppedEvent live store env frame m =
      Except.ok (ms.map
        (fun b => (b.id, dispatchForBreakpoint store env frame m.threadId b))) ∧
    (∀ b : Breakpoint, b ∈ ms ↔
      (b ∈ live ∧ b.uriPath = frame.sourcePath ∧
        env.resolvedLine b.id = Except.ok (some frame.line))) ∧
    (∀ (b : Breakpoint) (n : Nat),
      breakpointMatchesFrame env frame { b with line := n } =
        breakpointMatchesFrame env frame b) := by
  refine ⟨handleStoppedEvent_ok live store env frame m ms hstop hok, ?_, ?_⟩
  · intro b
    rw [asyncFilter_ok_mem live _ ms hok b, breakpointMatchesFrame_ok_true]
  · intro b n
    rfl

/-- C2 witness: a concrete stop at /a.py line 12 where breakpoint B resolves
to line 12 and matches while breakpoint A (nominal line 5, also resolving to
12 on this environment) shows the nominal line is ignored. -/
theorem matching_iff_path_and_resolved_line_witness :
    (exBpB ∈ [exBpA, exBpB] ∧ exBpB.uriPath = exFrame.sourcePath ∧
      exEnvEvalFail.resolvedLine exBpB.id = Except.ok (some exFrame.line)) ∧
    exBpB ∈ [exBpA, exBpB] :=
  ⟨((matching_iff_path_and_resolved_line [exBpA, exBpB] [("B", exTpB)] exEnvEvalFail
      exFrame exMsg [exBpA, exBpB] (by decide) (by rfl)).2.1 exBpB).mp (by decide),
    by decide⟩

/-- C1 counterexample: breakpoint B matches the stop (its resolution
succeeds with the frame's line) and has a Text talkpoint in the Store, yet
because breakpoint A's line-resolution round trip is rejected, the whole
matching pass rejects and the handler dispatches nothing at all — B's
feedback included. -/
theorem rejected_resolution_blocks_all_dispatch :
    breakpointMatchesFrame exEnvReject exFrame exBpB = Except.ok true ∧
    Store.get [("B", exTpB)] exBpB.id = some exTpB ∧
    handleStoppedEvent [exBpA, exBpB] [("B", exTpB)] exEnvReject exFrame exMsg =
      Except.error "rejected" := by
  refine ⟨by rfl, by decide, by rfl⟩

/-- C1 amended: failures inside the per-breakpoint dispatch are isolated —
in particular, for any behaviour of expression evaluation (including a failing
evaluation of another matched talkpoint's expression), a matched breakpoint
with a Text talkpoint still has its text announced; but this isolation only
holds when every per-breakpoint line-resolution round trip succeeds, since a
single rejected resolution rejects the whole matching pass. -/
theorem evaluation_failure_isolated (live : List Breakpoint) (store : Store)
    (env : DebugSessionEnv) (frame : StackFrame) (m : DebugProtocolMessage)
    (ms : List Breakpoint) (bB : Breakpoint) (tp : Talkpoint)
    (hstop : isTalkpointStop m = true)
    (hok : asyncFilter live (breakpointMatchesFrame env frame) = Except.ok ms)
    (hB : bB ∈ ms) (htp : Store.get store bB.id = some tp)
    (htype : tp.type = "Text") :
    ∃ results, handleStoppedEvent live store env frame m = Except.ok results ∧
      ∃ evs, (bB.id, evs) ∈ results ∧
        DispatchEvent.infoMessage ("Text Talkpoint Hit: " ++ jsStringOf tp.text) ∈ evs := by
  refine ⟨_, handleStoppedEvent_ok live store env frame m ms hstop hok, ?_⟩
  refine ⟨dispatchForBreakpoint store env frame m.threadId bB,
    List.mem_map_of_mem _ hB, ?_⟩
  unfold dispatchForBreakpoint
  rw [htp]
  apply List.mem_append_left
  unfold feedbackEvents
  rw [htype]
  exact List.mem_cons_self _ _

/-- C1 amended witness: the spec's own scenario — A's Expression talkpoint
fails evaluation, B's Text talkpoint is still announced. -/
theorem evaluation_failure_isolated_witness :
    ∃ results, handleStoppedEvent [exBpA, exBpB] [("A", exTpA), ("B", exTpB)]
        exEnvEvalFail exFrame exMsg = Except.ok results ∧
      ∃ evs, (exBpB.id, evs) ∈ results ∧
        DispatchEvent.infoMessage ("Text Talkpoint Hit: " ++ jsStringOf exTpB.text) ∈ evs :=
  evaluation_failure_isolated [exBpA, exBpB] [("A", exTpA), ("B", exTpB)] exEnvEvalFail
    exFrame exMsg [exBpA, exBpB] exBpB exTpB (by decide) (by rfl) (by decide)
    (by decide) (by decide)

/-- C5: for every breakpoint matched during one stopped-event handling whose
talkpoint is found in the Store, the events of its dispatch callback are a
nonempty feedback prefix followed — exactly when `shouldContinue` is true —
by exactly one continue request for the stopped thread; with `shouldContinue`
false no continue request occurs. -/
theorem continue_request_after_feedback (live : List Breakpoint) (store : Store)
    (env : DebugSessionEnv) (frame : StackFrame) (m : DebugProtocolMessage)
    (results : List (String × List DispatchEvent)) (bid : String)
    (evs : List DispatchEvent) (tp : Talkpoint)
    (hok : handleStoppedEvent live store env frame m = Except.ok results)
    (hmem : (bid, evs) ∈ results)
    (htp : Store.get store bid = some tp) :
    ∃ feedback, evs = feedback ++
        (if tp.shouldContinue then [DispatchEvent.continueRequest m.threadId] else []) ∧
      feedback ≠ [] ∧
      (∀ e ∈ feedback, ∀ t : Nat, e ≠ DispatchEvent.continueRequest t) ∧
      List.count (DispatchEvent.continueRequest m.threadId) evs =
        (if tp.shouldContinue then 1 else 0) := by
  cases hstop : isTalkpointStop m with
  | false =>
    unfold handleStoppedEvent at hok
    rw [hstop] at hok
    simp only [Bool.false_eq_true, if_neg] at hok
    cases hok
    simp at hmem
  | true =>
    cases hfl : asyncFilter live (breakpointMatchesFrame env frame) with
    | error e =>
      unfold handleStoppedEvent at hok
      rw [if_pos hstop, hfl] at hok
      cases hok
    | ok ms =>
      rw [handleStoppedEvent_ok live store env frame m ms hstop hfl] at hok
      cases hok
      rcases List.mem_map.mp hmem with ⟨b, hbms, hpair⟩
      rw [Prod.mk.injEq] at hpair
      rcases hpair with ⟨hbid, hevs⟩
      subst hbid
      subst hevs
      unfold dispatchForBreakpoint
      rw [htp]
      rcases feedbackEvents_ne_nil env frame tp with ⟨hne, hnc⟩
      refine ⟨feedbackEvents env frame tp, rfl, hne, hnc, ?_⟩
      have hzero : List.count (DispatchEvent.continueRequest m.threadId)
          (feedbackEvents env frame tp) = 0 := by
        apply List.count_eq_zero.mpr
        intro hin
        exact hnc _ hin m.threadId rfl
      cases hsc : tp.shouldContinue <;>
        simp [hsc, List.count_append, hzero, List.count_cons, List.count_nil]

/-- C5 witness: the Expression talkpoint on breakpoint A has
`shouldContinue = true`, and its dispatched events end in exactly one
continue request for thread 7 after its (failing) evaluation feedback. -/
theorem continue_request_after_feedback_witness :
    ∃ feedback,
      [DispatchEvent.infoMessage "Expression Talkpoint Invalid: name error",
       DispatchEvent.logged "Expression Talkpoint Invalid: name error",
       DispatchEvent.continueRequest 7] = feedback ++
        (if exTpA.shouldContinue then [DispatchEvent.continueRequest exMsg.threadId]
          else []) ∧
      feedback ≠ [] ∧
      (∀ e ∈ feedback, ∀ t : Nat, e ≠ DispatchEvent.continueRequest t) ∧
      List.count (DispatchEvent.continueRequest exMsg.threadId)
        [DispatchEvent.infoMessage "Expression Talkpoint Invalid: name error",
         DispatchEvent.logged "Expression Talkpoint Invalid: name error",
         DispatchEvent.continueRequest 7] =
        (if exTpA.shouldContinue then 1 else 0) :=
  continue_request_after_feedback [exBpA, exBpB] [("A", exTpA), ("B", exTpB)]
    exEnvEvalFail exFrame exMsg
    [("A", [DispatchEvent.infoMessage "Expression Talkpoint Invalid: name error",
            DispatchEvent.logged "Expression Talkpoint Invalid: name error",
            DispatchEvent.continueRequest 7]),
     ("B", [DispatchEvent.infoMessage "Text Talkpoint Hit: hello",
            DispatchEvent.logged "Text Talkpoint Hit: hello"])]
    "A"
    [DispatchEvent.infoMessage "Expression Talkpoint Invalid: name error",
     DispatchEvent.logged "Expression Talkpoint Invalid: name error",
     DispatchEvent.continueRequest 7]
    exTpA (by rfl) (by decide) (by decide)

/-! Lifecycle helper lemmas and claim theorems. -/

theorem removeBreakpoints_talkpointBacked (live : List Breakpoint) (p : String → Bool) :
    removeBreakpoints live (live.filter (fun b => p b.id)) =
      live.filter (fun b => !(p b.id)) := by
  unfold removeBreakpoints
  apply List.filter_congr
  intro b hb
  have hany : (List.filter (fun b0 => p b0.id) live).any (fun b0 => b0.id == b.id) = p b.id := by
    cases hp : p b.id with
    | true =>
      apply List.any_eq_true.mpr
      exact ⟨b, List.mem_filter.mpr ⟨hb, hp⟩, by simp⟩
    | false =>
      rw [List.any_eq_false]
      intro b0 hb0
      rcases List.mem_filter.mp hb0 with ⟨hmem, hpb0⟩
      intro hbeq
      rw [beq_iff_eq] at hbeq
      rw [hbeq, hp] at hpb0
      cases hpb0
  rw [hany]

/-- C9: removing all talkpoints on an empty Store only reports that none are
registered (no changed signal, nothing else touched); on a non-empty Store it
removes from the live set exactly the talkpoint-backed breakpoints, clears the
Store, reports the exact count removed, and emits the changed signal once. -/
theorem removeAllTalkpoints_spec (s : ControllerState) :
    (s.talkPoints = [] →
      handleRemoveAllTalkpoints s =
        { s with messages := s.messages ++
            [Message.info "There are no talkpoints registered."] }) ∧
    (s.talkPoints ≠ [] →
      handleRemoveAllTalkpoints s =
        { s with
          liveBreakpoints :=
            s.liveBreakpoints.filter (fun b => !(Store.hasKey s.talkPoints b.id)),
          talkPoints := [],
          messages := s.messages ++
            [Message.info ("Removed " ++ toString (Store.size s.talkPoints) ++
              " talkpoints from workspace.")],
          changedEmits := s.changedEmits + 1 }) := by
  constructor
  · intro h
    simp only [handleRemoveAllTalkpoints, h]
    rfl
  · intro h
    have hpos : Store.size s.talkPoints > 0 := by
      unfold Store.size
      exact List.length_pos.mpr h
    simp only [handleRemoveAllTalkpoints]
    rw [if_pos hpos, removeBreakpoints_talkpointBacked]

/-- C9 witness: on a Store holding one talkpoint, the talkpoint-backed
breakpoint is removed, the unrelated plain breakpoint survives, the count 1
is reported, and one changed signal is emitted. -/
theorem removeAllTalkpoints_spec_witness :
    handleRemoveAllTalkpoints exStateOne =
      { exStateOne with
        liveBreakpoints := [exBpA],
        talkPoints := [],
        messages := [Message.info "Removed 1 talkpoints from workspace."],
        changedEmits := 1 } :=
  (removeAllTalkpoints_spec exStateOne).2 (by decide)

/-- C7 counterexample: a breakpoint that existed before its talkpoint was
added (it is live in the initial state, with an empty Store) is nonetheless
removed from the live breakpoint set by the toggle-removal invocation — the
code removes the underlying breakpoint unconditionally. -/
theorem toggle_removes_preexisting_breakpoint :
    exBp0 ∈ exStateWithBp0.liveBreakpoints ∧
    Store.hasKey
      (handleAddTalkpoint exStateWithBp0 "/a.py" 4 "fresh1" exCreation).talkPoints
      exBp0.id = true ∧
    (handleAddTalkpoint
      (handleAddTalkpoint exStateWithBp0 "/a.py" 4 "fresh1" exCreation)
      "/a.py" 4 "fresh2" exCreation).liveBreakpoints = [] := by
  refine ⟨by decide, by decide, by decide⟩

/-- C7 amended: when the add-talkpoint operation is invoked on a breakpoint
that already has a talkpoint, the talkpoint is removed and the underlying
breakpoint is always removed from the live breakpoint set, whether or not it
existed before the talkpoint was added. -/
theorem toggle_always_removes_breakpoint (s : ControllerState) (activeUriPath : String)
    (selectionLine : Nat) (breakpoint : Breakpoint) (state : TalkpointCreationState)
    (h : Store.hasKey s.talkPoints breakpoint.id = true) :
    Store.hasKey
      (createTalkpoint s activeUriPath selectionLine breakpoint state).talkPoints
      breakpoint.id = false ∧
    ∀ b ∈ (createTalkpoint s activeUriPath selectionLine breakpoint state).liveBreakpoints,
      b.id ≠ breakpoint.id := by
  unfold createTalkpoint
  rw [if_pos h]
  constructor
  · simp only [removeTalkpoints, List.foldl_cons, List.foldl_nil, h, if_pos]
    simp [Store.hasKey, Store.get_del_self]
  · intro b hb
    simp only [removeBreakpoints, List.mem_filter] at hb
    rcases hb with ⟨hmem, hcond⟩
    simp only [List.any_cons, List.any_nil, Bool.or_false, Bool.not_eq_true'] at hcond
    intro heq
    rw [heq] at hcond
    simp at hcond

/-- C7 amended witness: toggling off the talkpoint on `exBp0` leaves no
talkpoint under its identity and no live breakpoint with its identity. -/
theorem toggle_always_removes_breakpoint_witness :
    Store.hasKey (createTalkpoint exStateOne "/a.py" 4 exBp0 exCreation).talkPoints
      exBp0.id = false ∧
    ∀ b ∈ (createTalkpoint exStateOne "/a.py" 4 exBp0 exCreation).liveBreakpoints,
      b.id ≠ exBp0.id :=
  toggle_always_removes_breakpoint exStateOne "/a.py" 4 exBp0 exCreation (by decide)

/-- C8: if the creation flow is dismissed early (and the selected breakpoint
does not already carry a talkpoint, so the creation flow actually runs), the
add-talkpoint operation only shows a warning: the Store, the live breakpoint
set (so the candidate breakpoint is not registered), and the changed-signal
count are all unchanged. -/
theorem dismissed_flow_no_op (s : ControllerState) (activeUriPath : String)
    (selectionLine : Nat) (freshId : String) (state : TalkpointCreationState)
    (hsel : Store.hasKey s.talkPoints
      (selectedBreakpoint s activeUriPath selectionLine freshId).id = false)
    (hdis : state.dismissedEarly = true) :
    handleAddTalkpoint s activeUriPath selectionLine freshId state =
      { s with messages := s.messages ++
          [Message.warning "Dismissed talkpoint creation."] } := by
  unfold handleAddTalkpoint createTalkpoint
  rw [hsel, hdis]
  simp

/-- C8 witness: dismissing the flow on the empty state adds only the warning
message. -/
theorem dismissed_flow_no_op_witness :
    handleAddTalkpoint exStateEmpty "/a.py" 3 "bp-1" exCreationDismissed =
      { exStateEmpty with
        messages := [Message.warning "Dismissed talkpoint creation."] } :=
  dismissed_flow_no_op exStateEmpty "/a.py" 3 "bp-1" exCreationDismissed
    (by decide) (by decide)

/-! Key/field agreement invariant (claim C10) and supporting lemmas. -/

theorem StoreKeyInv_del (st : Store) (k : String) (hinv : StoreKeyInv st) :
    StoreKeyInv (Store.del st k) := by
  intro e he
  exact hinv e (List.mem_filter.mp he).1

theorem load_fold_mem (store : Store) (all : List Breakpoint) (bps : List Breakpoint)
    (init : Store) (e : String × Talkpoint)
    (h : e ∈ bps.foldl (fun st bp =>
      match talkpointsByFileLine store bp.uriPath bp.line with
      | some talkpoint => Store.set st bp.id
          { talkpoint with breakpointId := lastMatchedId all bp.uriPath bp.line bp.id }
      | none => st) init) :
    e ∈ init ∨ ∃ bp ∈ bps, ∃ tp,
      talkpointsByFileLine store bp.uriPath bp.line = some tp ∧
      e = (bp.id, { tp with breakpointId := lastMatchedId all bp.uriPath bp.line bp.id }) := by
  induction bps generalizing init with
  | nil => exact Or.inl h
  | cons bp rest ih =>
    simp only [List.foldl_cons] at h
    rcases ih _ h with h' | ⟨bp', hbp', tp, htp, he⟩
    · cases hlook : talkpointsByFileLine store bp.uriPath bp.line with
      | none =>
        rw [hlook] at h'
        exact Or.inl h'
      | some tp =>
        rw [hlook] at h'
        rcases Store.mem_set _ _ _ _ h' with he | he
        · exact Or.inr ⟨bp, List.mem_cons_self _ _, tp, hlook, he⟩
        · exact Or.inl he
    · exact Or.inr ⟨bp', List.mem_cons_of_mem _ hbp', tp, htp, he⟩

theorem lastMatchedId_notin (bps : List Breakpoint) (path : String) (line : Nat)
    (d : String) (h : ∀ b ∈ bps, ¬(b.uriPath = path ∧ b.line = line)) :
    lastMatchedId bps path line d = d := by
  induction bps generalizing d with
  | nil => rfl
  | cons b0 rest ih =>
    rw [show lastMatchedId (b0 :: rest) path line d =
        lastMatchedId rest path line
          (if (b0.uriPath == path && b0.line == line) = true then b0.id else d) from rfl]
    have hc : ¬((b0.uriPath == path && b0.line == line) = true) := by
      simp only [Bool.and_eq_true, beq_iff_eq]
      exact h b0 (List.mem_cons_self _ _)
    rw [if_neg hc]
    exact ih _ (fun b hb => h b (List.mem_cons_of_mem _ hb))

theorem lastMatchedId_of_nodup (bps : List Breakpoint) (bp : Breakpoint) (d : String)
    (hlocs : (bps.map (fun b => (b.uriPath, b.line))).Nodup) (h : bp ∈ bps) :
    lastMatchedId bps bp.uriPath bp.line d = bp.id := by
  induction bps generalizing d with
  | nil => cases h
  | cons b0 rest ih =>
    rw [List.map_cons] at hlocs
    rcases List.nodup_cons.mp hlocs with ⟨hnin, hnodup⟩
    rw [show lastMatchedId (b0 :: rest) bp.uriPath bp.line d =
        lastMatchedId rest bp.uriPath bp.line
          (if (b0.uriPath == bp.uriPath && b0.line == bp.line) = true then b0.id else d)
        from rfl]
    rcases List.mem_cons.mp h with rfl | hm
    · rw [if_pos (by simp)]
      apply lastMatchedId_notin
      rintro b hb ⟨h1, h2⟩
      apply hnin
      rw [← h1, ← h2]
      exact List.mem_map_of_mem _ hb
    · have hc : ¬((b0.uriPath == bp.uriPath && b0.line == bp.line) = true) := by
        simp only [Bool.and_eq_true, beq_iff_eq]
        rintro ⟨h1, h2⟩
        apply hnin
        rw [h1, h2]
        exact List.mem_map_of_mem _ hm
      rw [if_neg hc]
      exact ih _ hnodup hm

theorem removeTalkpoints_inv (bps : List Breakpoint) (s : ControllerState)
    (hinv : StoreKeyInv s.talkPoints) :
    StoreKeyInv (removeTalkpoints s bps).talkPoints := by
  induction bps generalizing s with
  | nil => exact hinv
  | cons bp rest ih =>
    rw [show removeTalkpoints s (bp :: rest) =
        removeTalkpoints (removeTalkpoints s [bp]) rest from rfl]
    apply ih
    simp only [removeTalkpoints, List.foldl_cons, List.foldl_nil]
    by_cases hk : Store.hasKey s.talkPoints bp.id = true
    · rw [if_pos hk]
      exact StoreKeyInv_del _ _ hinv
    · rw [if_neg hk]
      exact hinv

theorem createTalkpoint_inv (s : ControllerState) (activeUriPath : String)
    (selectionLine : Nat) (breakpoint : Breakpoint) (state : TalkpointCreationState)
    (hinv : StoreKeyInv s.talkPoints) :
    StoreKeyInv (createTalkpoint s activeUriPath selectionLine breakpoint state).talkPoints := by
  unfold createTalkpoint
  by_cases hk : Store.hasKey s.talkPoints breakpoint.id = true
  · rw [if_pos hk]
    exact removeTalkpoints_inv [breakpoint] s hinv
  · rw [if_neg hk]
    by_cases hd : state.dismissedEarly = true
    · rw [if_pos hd]
      exact hinv
    · rw [if_neg hd]
      intro e he
      rcases Store.mem_set _ _ _ _ he with rfl | he'
      · rfl
      · exact hinv e he'

/-- C10 counterexample: the key/field agreement invariant is violated by
reconciliation in a reachable case — with two live breakpoints at one
(path, line), the source's in-place rewrite of the shared persisted object
leaves the entry keyed by the first breakpoint's identity carrying the second
breakpoint's identity. -/
theorem store_key_invariant_alias_counterexample :
    StoreKeyInv exStatePersisted.talkPoints ∧
    ¬ StoreKeyInv (loadInitialTalkpoints exStatePersisted [exBpNew, exBpNew2]).talkPoints := by
  constructor
  · unfold StoreKeyInv
    decide
  · unfold StoreKeyInv
    decide

/-- C10 amended: every Store-mutating operation of the controller preserves
the key/field agreement invariant (each entry's talkpoint records the key it
is stored under as its `breakpointId`) — for talkpoint creation, removal of
talkpoints for removed breakpoints, and the remove-all clearing
unconditionally, and for reconciliation's re-keying provided no two live
breakpoints of the loaded set share a (path, line); with a shared location,
the aliased entries all carry the last such breakpoint's identity instead. -/
theorem store_key_invariant_preserved (s : ControllerState)
    (hinv : StoreKeyInv s.talkPoints) :
    (∀ (activeUriPath : String) (selectionLine : Nat) (breakpoint : Breakpoint)
        (state : TalkpointCreationState),
      StoreKeyInv
        (createTalkpoint s activeUriPath selectionLine breakpoint state).talkPoints) ∧
    (∀ bps : List Breakpoint, (bps.map (fun b => (b.uriPath, b.line))).Nodup →
      StoreKeyInv (loadInitialTalkpoints s bps).talkPoints) ∧
    (∀ bps : List Breakpoint, StoreKeyInv (removeTalkpoints s bps).talkPoints) ∧
    StoreKeyInv (handleRemoveAllTalkpoints s).talkPoints ∧
    (∀ (activeUriPath : String) (selectionLine : Nat) (freshId : String)
        (state : TalkpointCreationState),
      StoreKeyInv
        (handleAddTalkpoint s activeUriPath selectionLine freshId state).talkPoints) := by
  refine ⟨fun p l bp cs => createTalkpoint_inv s p l bp cs hinv, ?_, ?_, ?_, ?_⟩
  · intro bps hbpslocs
    unfold loadInitialTalkpoints
    by_cases hl : s.breakpointsLoaded = true
    · rw [if_pos hl]
      exact hinv
    · rw [if_neg hl]
      intro e he
      rcases load_fold_mem s.talkPoints bps bps [] e he with habs | ⟨bp, hbp, tp, _, rfl⟩
      · cases habs
      · exact lastMatchedId_of_nodup bps bp bp.id hbpslocs hbp
  · intro bps
    exact removeTalkpoints_inv bps s hinv
  · unfold handleRemoveAllTalkpoints
    by_cases hn : Store.size s.talkPoints > 0
    · rw [if_pos hn]
      intro e he
      cases he
    · rw [if_neg hn]
      exact hinv
  · intro p l fid cs
    exact createTalkpoint_inv s p l _ cs hinv

/-- C10 witness: the invariant holds of the Store after creating a talkpoint
from a state that satisfies it. -/
theorem store_key_invariant_preserved_witness :
    StoreKeyInv (createTalkpoint exStateOne "/a.py" 4 exBp0 exCreation).talkPoints :=
  (store_key_invariant_preserved exStateOne
    (by unfold StoreKeyInv; decide)).1 "/a.py" 4 exBp0 exCreation

/-! Reconciliation idempotence (claim C4) and supporting lemmas. -/

theorem loadInitialTalkpoints_loaded (s : ControllerState) (bps : List Breakpoint)
    (h : s.breakpointsLoaded = true) : loadInitialTalkpoints s bps = s := by
  unfold loadInitialTalkpoints
  rw [if_pos h]

theorem loadInitialTalkpoints_flag (s : ControllerState) (bps : List Breakpoint) :
    (loadInitialTalkpoints s bps).breakpointsLoaded = true := by
  unfold loadInitialTalkpoints
  by_cases h : s.breakpointsLoaded = true
  · rw [if_pos h]
    exact h
  · rw [if_neg h]

theorem removeTalkpoints_breakpointsLoaded (bps : List Breakpoint) (s : ControllerState) :
    (removeTalkpoints s bps).breakpointsLoaded = s.breakpointsLoaded := by
  induction bps generalizing s with
  | nil => rfl
  | cons bp rest ih =>
    rw [show removeTalkpoints s (bp :: rest) =
        removeTalkpoints (removeTalkpoints s [bp]) rest from rfl, ih]
    simp only [removeTalkpoints, List.foldl_cons, List.foldl_nil]
    by_cases hk : Store.hasKey s.talkPoints bp.id = true
    · rw [if_pos hk]
    · rw [if_neg hk]

theorem removeTalkpoints_talkPoints (bps : List Breakpoint) (s : ControllerState) :
    (removeTalkpoints s bps).talkPoints =
      s.talkPoints.filter (fun e => !(bps.any (fun bp => bp.id == e.1))) := by
  induction bps generalizing s with
  | nil => simp [removeTalkpoints]
  | cons bp rest ih =>
    rw [show removeTalkpoints s (bp :: rest) =
        removeTalkpoints (removeTalkpoints s [bp]) rest from rfl, ih]
    have hone : (removeTalkpoints s [bp]).talkPoints =
        s.talkPoints.filter (fun e => e.1 != bp.id) := by
      simp only [removeTalkpoints, List.foldl_cons, List.foldl_nil]
      by_cases hk : Store.hasKey s.talkPoints bp.id = true
      · rw [if_pos hk]
        rfl
      · rw [if_neg hk]
        refine (List.filter_eq_self.mpr ?_).symm
        intro e he
        rw [bne_iff_ne]
        intro heq
        exact hk (heq ▸ Store.hasKey_of_mem s.talkPoints e he)
    rw [hone, List.filter_filter]
    apply List.filter_congr
    intro e _
    by_cases h : bp.id = e.1
    · simp [h]
    · have h1 : (bp.id == e.1) = false := by
        simp [h]
      have h2 : (e.1 != bp.id) = true := by
        rw [bne_iff_ne]
        exact Ne.symm h
      rw [List.any_cons, h1, h2]
      simp

/-- C4: the reconciliation step is idempotent per session.  First, once the
`breakpointsLoaded` guard flag is set, `loadInitialTalkpoints` is the
identity, so the durable join cannot re-run; second, handling the same
breakpoints-change event twice leaves the Store exactly as after the first
handling — no talkpoint is duplicated or lost. -/
theorem reconciliation_idempotent (s : ControllerState) (e : BreakpointsChangeEvent) :
    (∀ bps : List Breakpoint, s.breakpointsLoaded = true →
      loadInitialTalkpoints s bps = s) ∧
    (handleChangeBreakpointsEvent (handleChangeBreakpointsEvent s e) e).talkPoints =
      (handleChangeBreakpointsEvent s e).talkPoints := by
  constructor
  · intro bps h
    exact loadInitialTalkpoints_loaded s bps h
  · have hfilter_idem : ∀ (st : Store) (p : String × Talkpoint → Bool),
        (st.filter p).filter p = st.filter p := by
      intro st p
      rw [List.filter_filter]
      apply List.filter_congr
      intro q _
      exact Bool.and_self (p q)
    have hstep : ∀ s' : ControllerState, (handleChangeBreakpointsEvent s' e).talkPoints =
        (if e.removed.length > 0 then
          removeTalkpoints
            (if (!s'.breakpointsLoaded && decide (e.added.length > 0)) = true then
              loadInitialTalkpoints s' e.added else s') e.removed
         else
          (if (!s'.breakpointsLoaded && decide (e.added.length > 0)) = true then
            loadInitialTalkpoints s' e.added else s')).talkPoints :=
      fun s' => rfl
    have hstepflag : ∀ s' : ControllerState,
        (handleChangeBreakpointsEvent s' e).breakpointsLoaded =
        (if e.removed.length > 0 then
          removeTalkpoints
            (if (!s'.breakpointsLoaded && decide (e.added.length > 0)) = true then
              loadInitialTalkpoints s' e.added else s') e.removed
         else
          (if (!s'.breakpointsLoaded && decide (e.added.length > 0)) = true then
            loadInitialTalkpoints s' e.added else s')).breakpointsLoaded :=
      fun s' => rfl
    have hinner_flag : ∀ s' : ControllerState,
        ((if (!s'.breakpointsLoaded && decide (e.added.length > 0)) = true then
          loadInitialTalkpoints s' e.added else s')).breakpointsLoaded = true ∨
        (e.added.length > 0 → False) ∨ False := by
      intro s'
      by_cases hcnd : (!s'.breakpointsLoaded && decide (e.added.length > 0)) = true
      · rw [if_pos hcnd]
        exact Or.inl (loadInitialTalkpoints_flag s' e.added)
      · rw [if_neg hcnd]
        by_cases hl : s'.breakpointsLoaded = true
        · exact Or.inl hl
        · right
          left
          intro hadd
          apply hcnd
          rw [Bool.not_eq_true] at hl
          rw [hl]
          simp [hadd]
    have hcond2 : (!(handleChangeBreakpointsEvent s e).breakpointsLoaded &&
        decide (e.added.length > 0)) = false := by
      by_cases hadd : e.added.length > 0
      · have hflag1 : (handleChangeBreakpointsEvent s e).breakpointsLoaded = true := by
          rw [hstepflag s]
          rcases hinner_flag s with hf | hf | hf
          · by_cases hr : e.removed.length > 0
            · rw [if_pos hr, removeTalkpoints_breakpointsLoaded]
              exact hf
            · rw [if_neg hr]
              exact hf
          · exact absurd hadd hf
          · cases hf
        rw [hflag1]
        simp
      · simp [decide_eq_false hadd]
    have hc1 : ¬ ((!(handleChangeBreakpointsEvent s e).breakpointsLoaded &&
        decide (e.added.length > 0)) = true) := by
      rw [hcond2]
      simp
    rw [hstep (handleChangeBreakpointsEvent s e), if_neg hc1]
    by_cases hr : e.removed.length > 0
    · rw [if_pos hr]  -- ? only applies when outer if present; handle both ifs
      rw [removeTalkpoints_talkPoints]
      rw [hstep s, if_pos hr, removeTalkpoints_talkPoints]
      exact hfilter_idem _ _
    · rw [if_neg hr]

/-- C4 witness: reconciling the one-talkpoint state against a breakpoint set
twice yields the same Store as reconciling once, and with the guard set the
join does not re-run. -/
theorem reconciliation_idempotent_witness :
    (loadInitialTalkpoints exStateOne [exBp0] = exStateOne) ∧
    (handleChangeBreakpointsEvent
        (handleChangeBreakpointsEvent exStateOne
          { added := [exBp0], removed := [], changed := [] })
        { added := [exBp0], removed := [], changed := [] }).talkPoints =
      (handleChangeBreakpointsEvent exStateOne
        { added := [exBp0], removed := [], changed := [] }).talkPoints :=
  ⟨(reconciliation_idempotent exStateOne
      { added := [exBp0], removed := [], changed := [] }).1 [exBp0] (by decide),
   (reconciliation_idempotent exStateOne
      { added := [exBp0], removed := [], changed := [] }).2⟩

/-! Reconciliation join correctness (claim C3) and supporting lemmas. -/

theorem talkpointsByFileLine_append (store : Store) (q : String × Talkpoint)
    (path : String) (line : Nat) :
    talkpointsByFileLine (store ++ [q]) path line =
      (if (q.2.uriPath == path && q.2.positionLine == line) = true then some q.2
       else talkpointsByFileLine store path line) := by
  unfold talkpointsByFileLine
  rw [List.foldl_append]
  rfl

theorem talkpointsByFileLine_some (store : Store) (path : String) (line : Nat)
    (tp : Talkpoint) (h : talkpointsByFileLine store path line = some tp) :
    ∃ k, (k, tp) ∈ store ∧ tp.uriPath = path ∧ tp.positionLine = line := by
  induction store using List.reverseRecOn with
  | nil => simp [talkpointsByFileLine] at h
  | append_singleton rest q ih =>
    rw [talkpointsByFileLine_append] at h
    by_cases hc : (q.2.uriPath == path && q.2.positionLine == line) = true
    · rw [if_pos hc] at h
      cases h
      simp only [Bool.and_eq_true, beq_iff_eq] at hc
      exact ⟨q.1, by simp, hc.1, hc.2⟩
    · rw [if_neg hc] at h
      rcases ih h with ⟨k, hk, h1, h2⟩
      exact ⟨k, List.mem_append_left _ hk, h1, h2⟩

theorem talkpointsByFileLine_unique (store : Store) (path : String) (line : Nat)
    (q : String × Talkpoint)
    (hnodup : (store.map (fun r => (r.2.uriPath, r.2.positionLine))).Nodup)
    (hmem : q ∈ store) (hp : q.2.uriPath = path) (hl : q.2.positionLine = line) :
    talkpointsByFileLine store path line = some q.2 := by
  induction store using List.reverseRecOn with
  | nil => cases hmem
  | append_singleton rest r ih =>
    rw [List.map_append] at hnodup
    rcases List.nodup_append.mp hnodup with ⟨hn1, _, hdisj⟩
    rw [talkpointsByFileLine_append]
    rcases List.mem_append.mp hmem with hm | hm
    · have hql : ((q.2.uriPath, q.2.positionLine) : String × Nat) ∈
          rest.map (fun r => (r.2.uriPath, r.2.positionLine)) :=
        List.mem_map_of_mem _ hm
      have hr : ¬((r.2.uriPath == path && r.2.positionLine == line) = true) := by
        intro hc
        simp only [Bool.and_eq_true, beq_iff_eq] at hc
        exact hdisj hql (by simp [hc.1, hc.2, hp, hl])
      rw [if_neg hr]
      exact ih hn1 hm
    · rcases List.mem_singleton.mp hm with rfl
      rw [if_pos (by simp [hp, hl])]

theorem find?_id_of_nodup (bps : List Breakpoint) (bp : Breakpoint)
    (hids : (bps.map Breakpoint.id).Nodup) (h : bp ∈ bps) :
    bps.find? (fun b => b.id == bp.id) = some bp := by
  induction bps with
  | nil => cases h
  | cons b0 rest ih =>
    rw [List.map_cons] at hids
    rcases List.nodup_cons.mp hids with ⟨hnin, hnodup⟩
    rcases List.mem_cons.mp h with rfl | hm
    · rw [List.find?_cons_of_pos _ (by simp)]
    · have hne : b0.id ≠ bp.id := by
        intro he
        apply hnin
        rw [he]
        exact List.mem_map_of_mem _ hm
      rw [List.find?_cons_of_neg _ (by simp [hne])]
      exact ih hnodup hm

theorem load_fold_get_notin (store : Store) (all : List Breakpoint)
    (bps : List Breakpoint) (init : Store)
    (k : String) (h : ∀ bp ∈ bps, bp.id ≠ k) :
    Store.get (bps.foldl (fun st bp =>
      match talkpointsByFileLine store bp.uriPath bp.line with
      | some talkpoint => Store.set st bp.id
          { talkpoint with breakpointId := lastMatchedId all bp.uriPath bp.line bp.id }
      | none => st) init) k = Store.get init k := by
  induction bps generalizing init with
  | nil => rfl
  | cons bp rest ih =>
    simp only [List.foldl_cons]
    rw [ih _ (fun b hb => h b (List.mem_cons_of_mem _ hb))]
    cases hlook : talkpointsByFileLine store bp.uriPath bp.line with
    | none => rfl
    | some tp =>
      exact Store.get_set_ne init bp.id k _ (Ne.symm (h bp (List.mem_cons_self _ _)))

theorem load_fold_get (store : Store) (all : List Breakpoint) (bps : List Breakpoint)
    (init : Store) (k : String)
    (hids : (bps.map Breakpoint.id).Nodup) :
    Store.get (bps.foldl (fun st bp =>
      match talkpointsByFileLine store bp.uriPath bp.line with
      | some talkpoint => Store.set st bp.id
          { talkpoint with breakpointId := lastMatchedId all bp.uriPath bp.line bp.id }
      | none => st) init) k =
    Option.elim (bps.find? (fun b => b.id == k)) (Store.get init k)
      (fun bp => Option.elim (talkpointsByFileLine store bp.uriPath bp.line)
        (Store.get init k)
        (fun tp => some { tp with breakpointId := lastMatchedId all bp.uriPath bp.line bp.id })) := by
  induction bps generalizing init with
  | nil => rfl
  | cons bp rest ih =>
    simp only [List.foldl_cons]
    rw [List.map_cons] at hids
    rcases List.nodup_cons.mp hids with ⟨hnin, hnodup⟩
    by_cases hk : bp.id = k
    · rw [List.find?_cons_of_pos _ (by simp [hk])]
      simp only [Option.elim_some]
      have hrest : ∀ b ∈ rest, b.id ≠ k := by
        intro b hb he
        apply hnin
        rw [hk, ← he]
        exact List.mem_map_of_mem _ hb
      rw [load_fold_get_notin store all rest _ k hrest]
      cases hlook : talkpointsByFileLine store bp.uriPath bp.line with
      | none => rfl
      | some tp =>
        rw [Option.elim_some, ← hk]
        exact Store.get_set_self init bp.id _
    · rw [List.find?_cons_of_neg _ (by simp [hk]), ih _ hnodup]
      cases hlook : talkpointsByFileLine store bp.uriPath bp.line with
      | none => rfl
      | some tp =>
        rw [show (match (some tp : Option Talkpoint) with
          | some talkpoint => Store.set init bp.id
              { talkpoint with breakpointId := lastMatchedId all bp.uriPath bp.line bp.id }
          | none => init) =
          Store.set init bp.id
            { tp with breakpointId := lastMatchedId all bp.uriPath bp.line bp.id } from rfl,
          Store.get_set_ne init bp.id k _ (Ne.symm hk)]

/-- C3 counterexample: with two live breakpoints at one (path, line) —
distinct new identities, one persisted talkpoint, first load, so all of the
claim's preconditions hold — the entry stored under the first breakpoint's
identity carries the second breakpoint's identity, not its own: the source
mutates the one shared persisted object in place, and the last write wins. -/
theorem reconciliation_alias_counterexample :
    ([exBpNew, exBpNew2].map Breakpoint.id).Nodup ∧
    (exStatePersisted.talkPoints.map (fun r => (r.2.uriPath, r.2.positionLine))).Nodup ∧
    exStatePersisted.breakpointsLoaded = false ∧
    Store.get (loadInitialTalkpoints exStatePersisted [exBpNew, exBpNew2]).talkPoints
      exBpNew.id = some { exTpPersist with breakpointId := exBpNew2.id } ∧
    Store.get (loadInitialTalkpoints exStatePersisted [exBpNew, exBpNew2]).talkPoints
      exBpNew.id ≠ some { exTpPersist with breakpointId := exBpNew.id } := by
  refine ⟨by decide, by decide, by decide, by decide, by decide⟩

/-- C3 amended: after the first reconciliation over the just-loaded live
breakpoints (distinct new identities; distinct persisted locations —
duplicates are collapsed last-wins by the join record), the Store holds
exactly the previously held talkpoints whose (path, line) matches some live
breakpoint: each is found under the matching breakpoint's new identity with
only its `breakpointId` rewritten — to the identity of the **last** live
breakpoint at that (path, line), which is the breakpoint's own identity
whenever it is the only one at its location — every Store entry arises that
way, and a talkpoint whose location matches no live breakpoint leaves no
trace in the Store. -/
theorem reconciliation_join_correct (s : ControllerState) (bps : List Breakpoint)
    (hload : s.breakpointsLoaded = false)
    (hids : (bps.map Breakpoint.id).Nodup)
    (hlocs : (s.talkPoints.map (fun r => (r.2.uriPath, r.2.positionLine))).Nodup) :
    (∀ bp ∈ bps, ∀ q ∈ s.talkPoints,
      q.2.uriPath = bp.uriPath → q.2.positionLine = bp.line →
      Store.get (loadInitialTalkpoints s bps).talkPoints bp.id =
        some { q.2 with breakpointId := lastMatchedId bps bp.uriPath bp.line bp.id }) ∧
    (∀ q2 ∈ (loadInitialTalkpoints s bps).talkPoints, ∃ bp ∈ bps, ∃ q ∈ s.talkPoints,
      q2.1 = bp.id ∧
      q2.2 = { q.2 with breakpointId := lastMatchedId bps bp.uriPath bp.line bp.id } ∧
      q.2.uriPath = bp.uriPath ∧ q.2.positionLine = bp.line) ∧
    (∀ q ∈ s.talkPoints,
      (∀ bp ∈ bps, ¬(q.2.uriPath = bp.uriPath ∧ q.2.positionLine = bp.line)) →
      ∀ q2 ∈ (loadInitialTalkpoints s bps).talkPoints,
        ¬(q2.2.uriPath = q.2.uriPath ∧ q2.2.positionLine = q.2.positionLine)) := by
  have hload_eq : (loadInitialTalkpoints s bps).talkPoints =
      bps.foldl (fun st bp =>
        match talkpointsByFileLine s.talkPoints bp.uriPath bp.line with
        | some talkpoint => Store.set st bp.id
            { talkpoint with breakpointId := lastMatchedId bps bp.uriPath bp.line bp.id }
        | none => st) [] := by
    unfold loadInitialTalkpoints
    rw [if_neg (by simp [hload])]
  refine ⟨?_, ?_, ?_⟩
  · intro bp hbp q hq hqp hql
    rw [hload_eq, load_fold_get s.talkPoints bps bps [] bp.id hids,
      find?_id_of_nodup bps bp hids hbp, Option.elim_some,
      talkpointsByFileLine_unique s.talkPoints bp.uriPath bp.line q hlocs hq hqp hql,
      Option.elim_some]
  · intro q2 hq2
    rw [hload_eq] at hq2
    rcases load_fold_mem s.talkPoints bps bps [] q2 hq2 with habs | ⟨bp, hbp, tp, hlook, heq⟩
    · cases habs
    · rcases talkpointsByFileLine_some s.talkPoints bp.uriPath bp.line tp hlook with
        ⟨k, hkmem, htpp, htpl⟩
      exact ⟨bp, hbp, (k, tp), hkmem, by rw [heq], by rw [heq], htpp, htpl⟩
  · intro q hq hnomatch q2 hq2
    rw [hload_eq] at hq2
    rcases load_fold_mem s.talkPoints bps bps [] q2 hq2 with habs | ⟨bp, hbp, tp, hlook, heq⟩
    · cases habs
    · rcases talkpointsByFileLine_some s.talkPoints bp.uriPath bp.line tp hlook with
        ⟨k, _, htpp, htpl⟩
      rintro ⟨hup, hlp⟩
      apply hnomatch bp hbp
      constructor
      · rw [← hup, heq]
        exact htpp
      · rw [← hlp, heq]
        exact htpl

/-- C3 witness: the spec's scenario — a talkpoint persisted at
(/a.py, line 10) under stale identity "old-1" is re-keyed under the live
breakpoint's new identity "bp-7" with only its `breakpointId` rewritten;
with a single breakpoint at the location the last writer is that breakpoint
itself. -/
theorem reconciliation_join_correct_witness :
    Store.get (loadInitialTalkpoints exStatePersisted [exBpNew]).talkPoints exBpNew.id =
      some { exTpPersist with breakpointId := exBpNew.id } :=
  (reconciliation_join_correct exStatePersisted [exBpNew] (by decide) (by decide)
    (by decide)).1 exBpNew (by decide) ("old-1", exTpPersist) (by decide) (by decide)
    (by decide)

/-! Toggle parity (claim C6) and supporting lemmas. -/

theorem removeTalkpoints_liveBreakpoints (bps : List Breakpoint) (s : ControllerState) :
    (removeTalkpoints s bps).liveBreakpoints = s.liveBreakpoints := by
  induction bps generalizing s with
  | nil => rfl
  | cons bp rest ih =>
    rw [show removeTalkpoints s (bp :: rest) =
        removeTalkpoints (removeTalkpoints s [bp]) rest from rfl, ih]
    simp only [removeTalkpoints, List.foldl_cons, List.foldl_nil]
    by_cases hk : Store.hasKey s.talkPoints bp.id = true
    · rw [if_pos hk]
    · rw [if_neg hk]

theorem addTalkpoint_step_even (s : ControllerState) (p : String) (l : Nat)
    (fid : String) (cs : TalkpointCreationState)
    (hlive : liveAt s p l = []) (hstore : storeAt s p l = [])
    (hdis : cs.dismissedEarly = false)
    (hfresh1 : Store.hasKey s.talkPoints fid = false)
    (hfresh2 : ∀ b ∈ s.liveBreakpoints, b.id ≠ fid) :
    liveAt (handleAddTalkpoint s p l fid cs) p l =
      [{ id := fid, uriPath := p, line := l }] ∧
    ∃ tp : Talkpoint, storeAt (handleAddTalkpoint s p l fid cs) p l = [(fid, tp)] := by
  have hfilt : s.liveBreakpoints.filter (fun b => b.line == l && p == b.uriPath) = [] := hlive
  have hsel : selectedBreakpoint s p l fid = { id := fid, uriPath := p, line := l } := by
    unfold selectedBreakpoint
    rw [hfilt]
  have hkey : ¬(Store.hasKey s.talkPoints
      ({ id := fid, uriPath := p, line := l } : Breakpoint).id = true) := by
    simp [hfresh1]
  have hany : (s.liveBreakpoints.any (fun b0 => b0.id == fid)) = false := by
    rw [List.any_eq_false]
    intro b hb
    simp [hfresh2 b hb]
  have hadd : addBreakpoints s.liveBreakpoints [{ id := fid, uriPath := p, line := l }] =
      s.liveBreakpoints ++ [{ id := fid, uriPath := p, line := l }] := by
    simp [addBreakpoints, hany]
  unfold handleAddTalkpoint
  rw [hsel]
  unfold createTalkpoint
  rw [if_neg hkey, if_neg (by simp [hdis])]
  constructor
  · simp only [liveAt, hadd, List.filter_append, hfilt]
    simp
  · refine ⟨{ type := cs.type, text := cs.text,
              expression := cs.expression, sound := cs.sound,
              positionLine := l, uriPath := p, breakpointId := fid,
              shouldContinue := cs.shouldContinue }, ?_⟩
    simp only [storeAt]
    rw [Store.set_eq_append _ _ _ hfresh1, List.filter_append]
    rw [show s.talkPoints.filter
        (fun e => e.2.uriPath == p && e.2.positionLine == l) = storeAt s p l from rfl,
      hstore]
    simp

theorem addTalkpoint_step_odd (s : ControllerState) (p : String) (l : Nat)
    (fid : String) (cs : TalkpointCreationState) (K : String) (tp : Talkpoint)
    (hlive : liveAt s p l = [{ id := K, uriPath := p, line := l }])
    (hstore : storeAt s p l = [(K, tp)]) :
    liveAt (handleAddTalkpoint s p l fid cs) p l = [] ∧
    storeAt (handleAddTalkpoint s p l fid cs) p l = [] := by
  have hfilt : s.liveBreakpoints.filter (fun b => b.line == l && p == b.uriPath) =
      [{ id := K, uriPath := p, line := l }] := hlive
  have hsel : selectedBreakpoint s p l fid = { id := K, uriPath := p, line := l } := by
    unfold selectedBreakpoint
    rw [hfilt]
  have hmemK : (K, tp) ∈ s.talkPoints := by
    have hm : (K, tp) ∈ storeAt s p l := by
      rw [hstore]
      exact List.mem_singleton.mpr rfl
    exact (List.mem_filter.mp hm).1
  have hkey : Store.hasKey s.talkPoints
      ({ id := K, uriPath := p, line := l } : Breakpoint).id = true :=
    Store.hasKey_of_mem s.talkPoints (K, tp) hmemK
  unfold handleAddTalkpoint
  rw [hsel]
  unfold createTalkpoint
  rw [if_pos hkey]
  constructor
  · simp only [liveAt, removeTalkpoints_liveBreakpoints, removeBreakpoints]
    rw [List.filter_comm]
    rw [show s.liveBreakpoints.filter (fun b => b.line == l && p == b.uriPath) =
        liveAt s p l from rfl, hlive]
    simp
  · simp only [storeAt, removeTalkpoints_talkPoints]
    rw [List.filter_comm]
    rw [show s.talkPoints.filter
        (fun e => e.2.uriPath == p && e.2.positionLine == l) = storeAt s p l from rfl,
      hstore]
    simp

theorem toggle_parity_aux (p : String) (l : Nat)
    (ops : List (String × TalkpointCreationState)) :
    ∀ s : ControllerState, SeqOk p l s ops →
      ((liveAt s p l = [] ∧ storeAt s p l = []) →
        ((ops.length % 2 = 0 → liveAt (addTalkpointSeq p l s ops) p l = [] ∧
            storeAt (addTalkpointSeq p l s ops) p l = []) ∧
         (ops.length % 2 = 1 → ∃ K tp,
            liveAt (addTalkpointSeq p l s ops) p l =
              [{ id := K, uriPath := p, line := l }] ∧
            storeAt (addTalkpointSeq p l s ops) p l = [(K, tp)]))) ∧
      ((∃ K tp, liveAt s p l = [{ id := K, uriPath := p, line := l }] ∧
          storeAt s p l = [(K, tp)]) →
        ((ops.length % 2 = 0 → ∃ K tp,
            liveAt (addTalkpointSeq p l s ops) p l =
              [{ id := K, uriPath := p, line := l }] ∧
            storeAt (addTalkpointSeq p l s ops) p l = [(K, tp)]) ∧
         (ops.length % 2 = 1 → liveAt (addTalkpointSeq p l s ops) p l = [] ∧
            storeAt (addTalkpointSeq p l s ops) p l = []))) := by
  induction ops with
  | nil =>
    intro s _
    constructor
    · rintro ⟨h1, h2⟩
      exact ⟨fun _ => ⟨h1, h2⟩, fun habs => by cases habs⟩
    · rintro ⟨K, tp, h1, h2⟩
      exact ⟨fun _ => ⟨K, tp, h1, h2⟩, fun habs => by cases habs⟩
  | cons op rest ih =>
    rcases op with ⟨fid, cs⟩
    intro s hseq
    rcases hseq with ⟨hdis, hf1, hf2, hrest⟩
    have hstep : addTalkpointSeq p l s ((fid, cs) :: rest) =
        addTalkpointSeq p l (handleAddTalkpoint s p l fid cs) rest := rfl
    have hlen : ((fid, cs) :: rest).length = rest.length + 1 := rfl
    constructor
    · rintro ⟨h1, h2⟩
      rcases addTalkpoint_step_even s p l fid cs h1 h2 hdis hf1 hf2 with ⟨he1, tp, he2⟩
      have hnext := (ih (handleAddTalkpoint s p l fid cs) hrest).2 ⟨fid, tp, he1, he2⟩
      rw [hstep, hlen]
      constructor
      · intro hpar
        exact hnext.2 (by omega)
      · intro hpar
        exact hnext.1 (by omega)
    · rintro ⟨K, tp, h1, h2⟩
      rcases addTalkpoint_step_odd s p l fid cs K tp h1 h2 with ⟨ho1, ho2⟩
      have hnext := (ih (handleAddTalkpoint s p l fid cs) hrest).1 ⟨ho1, ho2⟩
      rw [hstep, hlen]
      constructor
      · intro hpar
        exact hnext.2 (by omega)
      · intro hpar
        exact hnext.1 (by omega)

/-- C6: starting from a state with no live breakpoint and no stored talkpoint
at a given (uri, line), any sequence of completed add-talkpoint invocations at
that line (each fresh breakpoint identity unused at its invocation) leaves at
most one talkpoint for that line in the Store: none after an even number of
invocations, exactly one after an odd number. -/
theorem toggle_parity (s : ControllerState) (p : String) (l : Nat)
    (ops : List (String × TalkpointCreationState))
    (hlive : liveAt s p l = []) (hstore : storeAt s p l = [])
    (hseq : SeqOk p l s ops) :
    (storeAt (addTalkpointSeq p l s ops) p l).length ≤ 1 ∧
    (ops.length % 2 = 0 → storeAt (addTalkpointSeq p l s ops) p l = []) ∧
    (ops.length % 2 = 1 → (storeAt (addTalkpointSeq p l s ops) p l).length = 1) := by
  rcases (toggle_parity_aux p l ops s hseq).1 ⟨hlive, hstore⟩ with ⟨heven, hodd⟩
  rcases Nat.mod_two_eq_zero_or_one ops.length with h | h
  · rcases heven h with ⟨_, hst⟩
    refine ⟨by rw [hst]; simp, fun _ => hst, fun hcon => by omega⟩
  · rcases hodd h with ⟨K, tp, _, hst⟩
    refine ⟨by rw [hst]; simp, fun hcon => by omega, fun _ => by rw [hst]; simp⟩

/-- C6 witness: one completed invocation on the empty state leaves exactly one
talkpoint at the line. -/
theorem toggle_parity_witness :
    (storeAt (addTalkpointSeq "/a.py" 3 exStateEmpty [("f1", exCreation)]) "/a.py" 3).length
      ≤ 1 ∧
    ([("f1", exCreation)].length % 2 = 0 →
      storeAt (addTalkpointSeq "/a.py" 3 exStateEmpty [("f1", exCreation)]) "/a.py" 3 = []) ∧
    ([("f1", exCreation)].length % 2 = 1 →
      (storeAt (addTalkpointSeq "/a.py" 3 exStateEmpty [("f1", exCreation)])
        "/a.py" 3).length = 1) :=
  toggle_parity exStateEmpty "/a.py" 3 [("f1", exCreation)] (by decide) (by decide)
    ⟨rfl, by decide, by simp [exStateEmpty], trivial⟩

end CodeTalk
